import Mathlib

/-!
# whatsapp-broadcast: a shallow embedding of `main.go`

Go strings are embedded as Lean `String`s (sequences of code points), Go `int`
as `Int` with an explicit 64-bit wrap where overflow matters, Go `error` as an
optional message.  External collaborators (the messaging client, the random
source, the file system, the pairing stream) are explicit parameters, and every
call made on them is recorded in a trace of `Effect`s.
-/

namespace WhatsappBroadcast

/-! ## Strings -/

/-- Go `strings.ReplaceAll` on code points, for a non-empty `old`: scan left to
right, replacing every non-overlapping occurrence.  `skip` counts the characters
of a matched occurrence that are still to be passed over. -/
def replaceAllAux (old new : List Char) : Nat → List Char → List Char
  | _, [] => []
  | skip + 1, _ :: rest => replaceAllAux old new skip rest
  | 0, c :: rest =>
    if old.isPrefixOf (c :: rest) then
      new ++ replaceAllAux old new (old.length - 1) rest
    else
      c :: replaceAllAux old new 0 rest

/-- Go `strings.ReplaceAll(s, old, new)`.  With an empty `old` Go inserts `new`
before every code point and at the end. -/
def ReplaceAll (s old new : String) : String :=
  if old.data = [] then
    ⟨new.data ++ s.data.flatMap (fun c => c :: new.data)⟩
  else
    ⟨replaceAllAux old.data new.data 0 s.data⟩

/-- Go `unicode.IsSpace`: the Latin-1 spaces and the Unicode White_Space
property. -/
def isSpace (c : Char) : Bool :=
  let n := c.toNat
  (9 ≤ n && n ≤ 13) || n == 32 || n == 133 || n == 160 || n == 5760 ||
  (8192 ≤ n && n ≤ 8202) || n == 8232 || n == 8233 || n == 8239 ||
  n == 8287 || n == 12288

/-- Go `strings.TrimSpace`: drop leading and trailing white space. -/
def TrimSpace (s : String) : String :=
  ⟨((s.data.dropWhile isSpace).reverse.dropWhile isSpace).reverse⟩

/-! ## Contacts -/

/-- The `Contact` struct. -/
structure Contact where
  Name : String
  Number : String
  deriving DecidableEq, Repr

/-- The `for i, record := range records` loop of `readContacts`, from index `i`
on, with `contacts` the slice accumulated so far. -/
def readContactsLoop : Nat → List (List String) → List Contact → List Contact
  | _, [], contacts => contacts
  | i, record :: rest, contacts =>
    if i = 0 then
      readContactsLoop (i + 1) rest contacts
    else if record.length ≥ 2 then
      let name := TrimSpace (record.getD 0 "")
      let number := TrimSpace (record.getD 1 "")
      if name ≠ "" ∧ number ≠ "" then
        readContactsLoop (i + 1) rest (contacts ++ [{ Name := name, Number := number }])
      else
        readContactsLoop (i + 1) rest contacts
    else
      readContactsLoop (i + 1) rest contacts

/-- The function `readContacts`; `readAll` is what opening the file and
`csv.Reader.ReadAll` produced: the records, or the error of either step. -/
def readContacts (readAll : Except String (List (List String))) :
    Except String (List Contact) :=
  match readAll with
  | .error err => .error err
  | .ok records => .ok (readContactsLoop 0 records [])

/-- The function `cleanNumber`. -/
def cleanNumber (number : String) : String :=
  let cleanNum := ReplaceAll number " " ""
  let cleanNum := ReplaceAll cleanNum "-" ""
  let cleanNum := ReplaceAll cleanNum "+" ""
  let cleanNum := ReplaceAll cleanNum "(" ""
  let cleanNum := ReplaceAll cleanNum ")" ""
  cleanNum

/-- The contact a record stands for in the words of the specification: a record
with at least two columns whose first two columns are non-empty once trimmed
gives the pair of the trimmed columns; any other record gives nothing. -/
def recordContact (record : List String) : Option Contact :=
  match record with
  | c0 :: c1 :: _ =>
    if TrimSpace c0 ≠ "" ∧ TrimSpace c1 ≠ "" then
      some { Name := TrimSpace c0, Number := TrimSpace c1 }
    else none
  | _ => none

/-- The parsed contact list in the words of the specification: the contacts of
the records after the first, in order. -/
def parseSpec (records : List (List String)) : List Contact :=
  (records.drop 1).filterMap recordContact

/-- The normalized address in the words of the specification: every space,
hyphen and parenthesis deleted, and a `+` deleted only where it leads the
string. -/
def cleanNumberSpec (number : String) : String :=
  let stripped := match number.data with
    | '+' :: rest => rest
    | cs => cs
  ⟨stripped.filter (fun c => c ≠ ' ' ∧ c ≠ '-' ∧ c ≠ '(' ∧ c ≠ ')')⟩

/-! ## The messaging client -/

/-- The fields of whatsmeow's `types.JID` that `types.NewJID` sets. -/
structure JID where
  User : String
  Server : String
  deriving DecidableEq, Repr

/-- The constant `types.DefaultUserServer`. -/
def DefaultUserServer : String := "s.whatsapp.net"

/-- The constructor `types.NewJID`. -/
def NewJID (user server : String) : JID := { User := user, Server := server }

/-- The method `JID.String` for a JID without agent or device. -/
def JID.String (jid : JID) : String :=
  if jid.User.length > 0 then jid.User ++ "@" ++ jid.Server else jid.Server

/-- The fields of `types.IsOnWhatsAppResponse` the program reads. -/
structure IsOnWhatsAppResponse where
  Query : String
  JID : JID
  IsIn : Bool
  deriving DecidableEq, Repr

/-- A call made on an external collaborator, in the order it was made. -/
inductive Effect
  | readFile
  | readContacts
  | connect
  | qrRender (code : String)
  | println (text : String)
  | awaitConnected
  | sleep (nanoseconds : Int)
  | isOnWhatsApp (phones : List String)
  | sendMessage (dest : JID) (body : String)
  | disconnect
  deriving DecidableEq, Repr

/-- The external collaborators of the broadcast loop over a state `σ` of their
own: the client's reachability query and send operation (each returns its Go
result, the error being `none` for `nil`) and the random source behind
`rand.Intn`. -/
structure World (σ : Type) where
  IsOnWhatsApp : σ → List String → Except String (List IsOnWhatsAppResponse) × σ
  SendMessage : σ → JID → String → Option String × σ
  Intn : σ → Int → Int × σ

/-- The function `sendMessage`: the returned error, the collaborators' next
state and the calls made on the client. -/
def sendMessage {σ : Type} (w : World σ) (st : σ) (number message : String) :
    Option String × σ × List Effect :=
  let cleanNum := cleanNumber number
  let jid := NewJID cleanNum DefaultUserServer
  match w.IsOnWhatsApp st [jid.String] with
  | (.error err, st1) =>
    (some ("failed to verify number: " ++ err), st1, [.isOnWhatsApp [jid.String]])
  | (.ok isOnWhatsApp, st1) =>
    match isOnWhatsApp with
    | [] =>
      (some "number is not registered on WhatsApp", st1, [.isOnWhatsApp [jid.String]])
    | first :: _ =>
      if !first.IsIn then
        (some "number is not registered on WhatsApp", st1, [.isOnWhatsApp [jid.String]])
      else
        let verifiedJID := first.JID
        let (err, st2) := w.SendMessage st1 verifiedJID message
        (err, st2, [.isOnWhatsApp [jid.String], .sendMessage verifiedJID message])

/-! ## The broadcast loop -/

/-- Two's-complement wrap of a 64-bit signed integer operation. -/
def wrap64 (x : Int) : Int :=
  (x + 9223372036854775808) % 18446744073709551616 - 9223372036854775808

/-- The argument `maxDelay-minDelay+1` of `rand.Intn`, in 64-bit arithmetic. -/
def delayArg (minDelay maxDelay : Int) : Int :=
  wrap64 (wrap64 (maxDelay - minDelay) + 1)

/-- The delay in seconds `minDelay+r` for a draw `r`, in 64-bit arithmetic. -/
def delaySeconds (minDelay r : Int) : Int :=
  wrap64 (minDelay + r)

/-- The conversion `time.Duration(seconds) * time.Second`, in nanoseconds. -/
def toDuration (seconds : Int) : Int :=
  wrap64 (seconds * 1000000000)

/-- The variables the loop of `main` updates. -/
structure LoopState (σ : Type) where
  successCount : Nat
  failCount : Nat
  world : σ
  trace : List Effect

/-- One iteration of `for i, contact := range testContacts`, `n` being
`len(testContacts)`.  The result is `none` when `rand.Intn` panics on a
non-positive argument. -/
def loopBody {σ : Type} (w : World σ) (minDelay maxDelay : Int) (messageTemplate : String)
    (n i : Nat) (contact : Contact) (s : LoopState σ) : Option (LoopState σ) :=
  let personalizedMessage := ReplaceAll messageTemplate "${name}" contact.Name
  let (err, st1, calls) := sendMessage w s.world contact.Number personalizedMessage
  let s1 : LoopState σ :=
    match err with
    | some _ => { s with failCount := s.failCount + 1, world := st1, trace := s.trace ++ calls }
    | none => { s with successCount := s.successCount + 1, world := st1, trace := s.trace ++ calls }
  if (i : Int) < (n : Int) - 1 then
    if delayArg minDelay maxDelay ≤ 0 then none
    else
      let (r, st2) := w.Intn s1.world (delayArg minDelay maxDelay)
      let delay := toDuration (delaySeconds minDelay r)
      some { s1 with world := st2, trace := s1.trace ++ [.sleep delay] }
  else
    some s1

/-- The loop over the recipients still to process, `i` being the index of the
first of them. -/
def broadcastFrom {σ : Type} (w : World σ) (minDelay maxDelay : Int) (messageTemplate : String)
    (n : Nat) : Nat → List Contact → LoopState σ → Option (LoopState σ)
  | _, [], s => some s
  | i, contact :: rest, s =>
    match loopBody w minDelay maxDelay messageTemplate n i contact s with
    | none => none
    | some s1 => broadcastFrom w minDelay maxDelay messageTemplate n (i + 1) rest s1

/-- The broadcast loop of `main` over the working set `testContacts`, started
with both counters at zero. -/
def broadcast {σ : Type} (w : World σ) (minDelay maxDelay : Int) (messageTemplate : String)
    (testContacts : List Contact) (st : σ) : Option (LoopState σ) :=
  broadcastFrom w minDelay maxDelay messageTemplate testContacts.length 0 testContacts
    { successCount := 0, failCount := 0, world := st, trace := [] }

/-- The working set `testContacts` chosen by `main`. -/
def selectContacts (contacts : List Contact) (fullMode : Bool) : List Contact :=
  let testContacts := contacts
  if !fullMode then
    if contacts.length > 0 then contacts.take 1 else testContacts
  else testContacts

/-! ## The delay range -/

/-- The method `SkipSpace` of the scanner behind `fmt.Sscanf`, where a newline
does not count as space. -/
def skipSpace : List Char → Except String (List Char)
  | [] => .ok []
  | c :: rest =>
    if c = '\r' ∧ rest.head? = some '\n' then skipSpace rest
    else if c = '\n' then .error "unexpected newline"
    else if isSpace c then skipSpace rest
    else .ok (c :: rest)

/-- A decimal digit, `'0'` to `'9'`. -/
def isDecimalDigit (c : Char) : Bool := 48 ≤ c.toNat && c.toNat ≤ 57

/-- The characters `scanNumber` accepts for the verb `%d`. -/
def isScanDigit (c : Char) : Bool := isDecimalDigit c || c = '_'

/-- Go `strconv.ParseUint(s, 10, 64)`. -/
def ParseUint (s : List Char) : Except String Nat :=
  if s = [] then .error "invalid syntax"
  else if s.all isDecimalDigit then
    let un := s.foldl (fun acc c => 10 * acc + (c.toNat - 48)) 0
    if un ≥ 18446744073709551616 then .error "value out of range" else .ok un
  else .error "invalid syntax"

/-- Go `strconv.ParseInt(s, 10, 64)`. -/
def ParseInt (s : List Char) : Except String Int :=
  let (neg, digits) : Bool × List Char :=
    match s with
    | '+' :: rest => (false, rest)
    | '-' :: rest => (true, rest)
    | _ => (false, s)
  match ParseUint digits with
  | .error err => .error err
  | .ok un =>
    if !neg && un ≥ 9223372036854775808 then .error "value out of range"
    else if neg && un > 9223372036854775808 then .error "value out of range"
    else .ok (if neg then -(un : Int) else (un : Int))

/-- The scan of one `%d` operand into an `int`: the value and the input left. -/
def scanInt (input : List Char) : Except String (Int × List Char) :=
  match skipSpace input with
  | .error err => .error err
  | .ok input =>
    match skipSpace input with
    | .error err => .error err
    | .ok [] => .error "unexpected EOF"
    | .ok (c :: rest) =>
      let (sign, input) : List Char × List Char :=
        if c = '+' ∨ c = '-' then ([c], rest) else ([], c :: rest)
      if input = [] then .error "unexpected EOF"
      else if input.takeWhile isScanDigit = [] then .error "expected integer"
      else
        match ParseInt (sign ++ input.takeWhile isScanDigit) with
        | .error err => .error err
        | .ok v => .ok (v, input.dropWhile isScanDigit)

/-- The call `fmt.Sscanf(delayRange, "%d-%d", &minDelay, &maxDelay)`: the values
of `minDelay` and `maxDelay` after it (a variable the scan did not reach keeps
its zero value) and the returned error.  Input after the second integer is not
looked at. -/
def scanDelayRange (delayRange : String) : Int × Int × Option String :=
  match scanInt delayRange.data with
  | .error err => (0, 0, some err)
  | .ok (minDelay, rest) =>
    match rest with
    | [] => (minDelay, 0, some "unexpected EOF")
    | c :: rest =>
      if c ≠ '-' then (minDelay, 0, some "input does not match format")
      else
        match scanInt rest with
        | .error err => (minDelay, 0, some err)
        | .ok (maxDelay, _) => (minDelay, maxDelay, none)

/-- The delay bounds `main` goes on with, or `none` where it prints
"Invalid delay format" and exits. -/
def parseDelay (delayRange : String) : Option (Int × Int) :=
  match scanDelayRange delayRange with
  | (minDelay, maxDelay, err) =>
    if err ≠ none ∨ minDelay ≤ 0 ∨ maxDelay ≤ 0 ∨ minDelay > maxDelay then none
    else some (minDelay, maxDelay)

/-! ## Session setup -/

/-- The fields of `whatsmeow.QRChannelItem` the program reads. -/
structure QRChannelItem where
  Event : String
  Code : String
  deriving DecidableEq, Repr

/-- What the outside world does during `setupWhatsAppClient`: the error of each
fallible call (`none` for `nil`), whether the store holds a device id, the items
the pairing channel yields before it is closed, and whether the `Connected`
event is received before the ten-second timer fires. -/
structure SetupEnv where
  mkdirErr : Option String
  sqlNewErr : Option String
  getDeviceErr : Option String
  storeHasID : Bool
  connectErr : Option String
  qrChan : List QRChannelItem
  connected : Bool

/-- The loop `for evt := range qrChan` of `setupWhatsAppClient`. -/
def qrLoop : List QRChannelItem → List Effect
  | [] => []
  | evt :: rest =>
    if evt.Event = "code" then
      Effect.qrRender evt.Code :: qrLoop rest
    else
      [Effect.println "✅ Authenticated successfully (session will be saved)"]

/-- The final `select` of `setupWhatsAppClient`, entered with the trace `trace`
of the calls made so far. -/
def waitConnected (env : SetupEnv) (trace : List Effect) : Except String Unit × List Effect :=
  if env.connected then
    (.ok (), trace ++ [Effect.awaitConnected, Effect.println "✅ Connection established"])
  else
    (.error "connection timeout", trace ++ [Effect.awaitConnected])

/-- The function `setupWhatsAppClient`: success (the client) or the returned
error, and the calls made. -/
def setupWhatsAppClient (env : SetupEnv) : Except String Unit × List Effect :=
  match env.mkdirErr with
  | some err => (.error ("failed to create data directory: " ++ err), [])
  | none =>
  match env.sqlNewErr with
  | some err => (.error ("failed to create database: " ++ err), [])
  | none =>
  match env.getDeviceErr with
  | some err => (.error ("failed to get device: " ++ err), [])
  | none =>
  if !env.storeHasID then
    let intro := [Effect.println "\n⚠️  Session not found or expired. Please authenticate:",
      Effect.println "📱 Scan this QR code in WhatsApp (Menu → Linked Devices):"]
    match env.connectErr with
    | some err => (.error ("failed to connect: " ++ err), intro ++ [Effect.connect])
    | none => waitConnected env (intro ++ [Effect.connect] ++ qrLoop env.qrChan)
  else
    match env.connectErr with
    | some err => (.error ("failed to connect: " ++ err), [Effect.connect])
    | none =>
      waitConnected env
        [Effect.connect, Effect.println "✅ WhatsApp client ready (using saved session)"]

/-! ## The run -/

/-- The inputs of `main` once flags and prompts are resolved, and what the file
system answers. -/
structure Config where
  numbersExists : Bool
  messageExists : Bool
  fullMode : Bool
  delayRange : String
  messageFile : Except String String
  records : Except String (List (List String))
  setup : SetupEnv

/-- How a run ends: the exit status, the calls made on the collaborators, and
the counters `(successCount, failCount)` when the summary line was printed. -/
structure Run where
  exitCode : Int
  trace : List Effect
  summary : Option (Nat × Nat)
  deriving DecidableEq, Repr

/-- The function `main` from the first file check on.  `os.Exit(1)` ends the
run at once; the deferred `client.Disconnect()` runs when `main` returns. -/
def main {σ : Type} (w : World σ) (st : σ) (cfg : Config) : Run :=
  if !cfg.numbersExists then { exitCode := 1, trace := [], summary := none }
  else if !cfg.messageExists then { exitCode := 1, trace := [], summary := none }
  else
  match parseDelay cfg.delayRange with
  | none => { exitCode := 1, trace := [], summary := none }
  | some (minDelay, maxDelay) =>
  match cfg.messageFile with
  | .error _ => { exitCode := 1, trace := [Effect.readFile], summary := none }
  | .ok messageBytes =>
  let messageTemplate := TrimSpace messageBytes
  match readContacts cfg.records with
  | .error _ => { exitCode := 1, trace := [Effect.readFile, Effect.readContacts], summary := none }
  | .ok contacts =>
  if contacts.length = 0 then
    { exitCode := 1, trace := [Effect.readFile, Effect.readContacts], summary := none }
  else
  let testContacts := selectContacts contacts cfg.fullMode
  match setupWhatsAppClient cfg.setup with
  | (.error _, calls) =>
    { exitCode := 1, trace := [Effect.readFile, Effect.readContacts] ++ calls, summary := none }
  | (.ok (), calls) =>
  let before := [Effect.readFile, Effect.readContacts] ++ calls ++ [Effect.sleep 3000000000]
  match broadcast w minDelay maxDelay messageTemplate testContacts st with
  | none => { exitCode := 2, trace := before ++ [Effect.disconnect], summary := none }
  | some s =>
    { exitCode := 0, trace := before ++ s.trace ++ [Effect.disconnect],
      summary := some (s.successCount, s.failCount) }

/-- The send calls of a trace, in order. -/
def sendCalls : List Effect → List (JID × String)
  | [] => []
  | Effect.sendMessage dest body :: rest => (dest, body) :: sendCalls rest
  | _ :: rest => sendCalls rest

/-- The reachability queries of a trace, in order. -/
def queryCalls : List Effect → List (List String)
  | [] => []
  | Effect.isOnWhatsApp phones :: rest => phones :: queryCalls rest
  | _ :: rest => queryCalls rest

/-- The sleeps of a trace, in order. -/
def sleepCalls : List Effect → List Int
  | [] => []
  | Effect.sleep d :: rest => d :: sleepCalls rest
  | _ :: rest => sleepCalls rest

/-- The pacing pattern of a trace: `false` for a reachability query (the first
call of every delivery attempt), `true` for a sleep. -/
def pacing : List Effect → List Bool
  | [] => []
  | Effect.isOnWhatsApp _ :: rest => false :: pacing rest
  | Effect.sleep _ :: rest => true :: pacing rest
  | _ :: rest => pacing rest

/-- The reachability query `sendMessage` makes for a contact. -/
def queryOf (contact : Contact) : List String :=
  [(NewJID (cleanNumber contact.Number) DefaultUserServer).String]

/-- The number a string of decimal digits writes. -/
def decimalValue (ds : List Char) : Nat :=
  ds.foldl (fun acc c => 10 * acc + (c.toNat - 48)) 0

/-- A collaborator that reports every number registered under the address
`verified@s.whatsapp.net`, accepts every send, and always draws `0`. -/
def friendlyWorld : World Unit where
  IsOnWhatsApp := fun st phones =>
    (.ok (phones.map fun q =>
      { Query := q, JID := NewJID "verified" DefaultUserServer, IsIn := true }), st)
  SendMessage := fun st _ _ => (none, st)
  Intn := fun st _ => (0, st)

/-- A session setup with saved credentials in which every step succeeds. -/
def readySetup : SetupEnv :=
  { mkdirErr := none, sqlNewErr := none, getDeviceErr := none, storeHasID := true,
    connectErr := none, qrChan := [], connected := true }

/-- The scenario of the specification: two contacts, the template
`"Hi ${name}!"`, test mode, the default delay range. -/
def sampleConfig : Config :=
  { numbersExists := true, messageExists := true, fullMode := false, delayRange := "15-35",
    messageFile := .ok "Hi ${name}!\n",
    records := .ok [["name", "number"], ["Alice", "+1 555-0100"], ["Bob", "5550101"]],
    setup := readySetup }

/-- The number of `client.Disconnect()` calls of a trace. -/
def disconnectCount (trace : List Effect) : Nat :=
  trace.count Effect.disconnect

/-- A session setup without saved credentials in which every fallible call
succeeds: the pairing channel yields `qrChan` and is then closed, and
`connected` tells whether the `Connected` event arrives in time. -/
def pairingSetup (qrChan : List QRChannelItem) (connected : Bool) : SetupEnv :=
  { mkdirErr := none, sqlNewErr := none, getDeviceErr := none, storeHasID := false,
    connectErr := none, qrChan := qrChan, connected := connected }

/-- The test `evt.Event == "code"` of the pairing loop. -/
def isCode (evt : QRChannelItem) : Bool := evt.Event = "code"

/-- The two lines printed before pairing starts. -/
def pairingIntro : List Effect :=
  [Effect.println "\n⚠️  Session not found or expired. Please authenticate:",
    Effect.println "📱 Scan this QR code in WhatsApp (Menu → Linked Devices):"]

/-- The state after the counting part of an iteration. -/
def counted {σ : Type} (w : World σ) (messageTemplate : String) (contact : Contact)
    (s : LoopState σ) : LoopState σ :=
  let r := sendMessage w s.world contact.Number (ReplaceAll messageTemplate "${name}" contact.Name)
  { successCount := s.successCount + (if r.1 = none then 1 else 0),
    failCount := s.failCount + (if r.1 = none then 0 else 1),
    world := r.2.1,
    trace := s.trace ++ r.2.2 }

/-! ## Lemmas on strings -/

theorem replaceAllAux_single_nil (c : Char) (s : List Char) :
    replaceAllAux [c] [] 0 s = s.filter (fun x => x ≠ c) := by
  induction s with
  | nil => simp [replaceAllAux]
  | cons x rest ih =>
    by_cases h : c = x
    · subst h
      simp [replaceAllAux, List.isPrefixOf, ih]
    · have h2 : ¬ x = c := fun e => h e.symm
      simp [replaceAllAux, List.isPrefixOf, ih, h, h2]

theorem ReplaceAll_single_nil (s : String) (c : Char) :
    ReplaceAll s ⟨[c]⟩ "" = ⟨s.data.filter (fun x => x ≠ c)⟩ := by
  simp [ReplaceAll, replaceAllAux_single_nil]

theorem cleanNumber_eq_filter (s : String) :
    cleanNumber s =
      ⟨s.data.filter (fun c => c ≠ ' ' ∧ c ≠ '-' ∧ c ≠ '+' ∧ c ≠ '(' ∧ c ≠ ')')⟩ := by
  have h1 : (" " : String) = ⟨[' ']⟩ := rfl
  have h2 : ("-" : String) = ⟨['-']⟩ := rfl
  have h3 : ("+" : String) = ⟨['+']⟩ := rfl
  have h4 : ("(" : String) = ⟨['(']⟩ := rfl
  have h5 : (")" : String) = ⟨[')']⟩ := rfl
  simp only [cleanNumber, h1, h2, h3, h4, h5, ReplaceAll_single_nil, List.filter_filter]
  congr 1
  apply List.filter_congr
  intro c _
  simp only [Bool.decide_and, Bool.and_assoc, decide_not]
  cases decide (c = ' ') <;> cases decide (c = '-') <;> cases decide (c = '+') <;>
    cases decide (c = '(') <;> cases decide (c = ')') <;> rfl

/-! ## Lemmas on the contact list -/

theorem readContactsLoop_succ (i : Nat) (records : List (List String)) (acc : List Contact) :
    readContactsLoop (i + 1) records acc = acc ++ records.filterMap recordContact := by
  induction records generalizing i acc with
  | nil => simp [readContactsLoop]
  | cons record rest ih =>
    rcases record with _ | ⟨c0, _ | ⟨c1, cols⟩⟩
    · simp [readContactsLoop, recordContact, ih]
    · simp [readContactsLoop, recordContact, ih]
    · by_cases h : TrimSpace c0 ≠ "" ∧ TrimSpace c1 ≠ ""
      · simp [readContactsLoop, recordContact, ih, h]
      · simp [readContactsLoop, recordContact, ih, h]

theorem readContactsLoop_zero (records : List (List String)) :
    readContactsLoop 0 records [] = parseSpec records := by
  cases records with
  | nil => simp [readContactsLoop, parseSpec]
  | cons header rest => simp [readContactsLoop, parseSpec, readContactsLoop_succ]

/-! ## The claims -/

/-- C7 as stated fails: `cleanNumber` deletes a `+` that does not lead the
string, which the specification's normalization keeps. -/
theorem cleanNumber_inner_plus_deleted :
    cleanNumber "1+2" = "12" ∧ cleanNumberSpec "1+2" = "1+2" ∧
      cleanNumber "1+2" ≠ cleanNumberSpec "1+2" := by
  decide

/-- C7 amended: `cleanNumber s` is `s` with every space, hyphen, `+`, `(` and
`)` deleted and every other character kept in place and in order; in particular
`cleanNumber "+1 555-0100" = "15550100"`. -/
theorem cleanNumber_deletes_formatting :
    (∀ s : String, cleanNumber s =
      ⟨s.data.filter (fun c => c ≠ ' ' ∧ c ≠ '-' ∧ c ≠ '+' ∧ c ≠ '(' ∧ c ≠ ')')⟩) ∧
    cleanNumber "+1 555-0100" = "15550100" :=
  ⟨cleanNumber_eq_filter, by decide⟩

/-- C2: the contact list `readContacts` builds from CSV records is the list, in
order and with duplicates kept, of the trimmed pairs of the records after the
first that have two columns, both non-empty once trimmed; the first record never
contributes, and a read error is passed on. -/
theorem readContacts_eq_parseSpec :
    (∀ records : List (List String), readContacts (.ok records) = .ok (parseSpec records)) ∧
    (∀ (header other : List String) (rest : List (List String)),
      readContacts (.ok (header :: rest)) = readContacts (.ok (other :: rest))) ∧
    (∀ (header : List String) (rest : List (List String)),
      readContacts (.ok (header :: rest)) = .ok (rest.filterMap recordContact)) ∧
    (∀ record : List String, recordContact record =
      if 2 ≤ record.length ∧ TrimSpace (record.getD 0 "") ≠ "" ∧
          TrimSpace (record.getD 1 "") ≠ "" then
        some { Name := TrimSpace (record.getD 0 ""), Number := TrimSpace (record.getD 1 "") }
      else none) := by
  refine ⟨?_, ?_, ?_, ?_⟩
  · intro records
    simp [readContacts, readContactsLoop_zero]
  · intro header other rest
    simp [readContacts, readContactsLoop_zero, parseSpec]
  · intro header rest
    simp [readContacts, readContactsLoop_zero, parseSpec]
  · intro record
    rcases record with _ | ⟨c0, _ | ⟨c1, cols⟩⟩ <;> simp [recordContact]

/-- C1: `sendMessage` queries reachability of the address built from the
cleaned number; on a query error, an empty result or an unregistered first
result it returns a non-nil error and makes no send call; otherwise it makes
exactly one send call, to the JID of the first result with the message as body,
and returns that call's error. -/
theorem sendMessage_contract {σ : Type} (w : World σ) (st : σ) (number message : String) :
    (match w.IsOnWhatsApp st [(NewJID (cleanNumber number) DefaultUserServer).String] with
      | (.error err, st1) =>
        sendMessage w st number message =
          (some ("failed to verify number: " ++ err), st1,
            [Effect.isOnWhatsApp [(NewJID (cleanNumber number) DefaultUserServer).String]])
      | (.ok [], st1) =>
        sendMessage w st number message =
          (some "number is not registered on WhatsApp", st1,
            [Effect.isOnWhatsApp [(NewJID (cleanNumber number) DefaultUserServer).String]])
      | (.ok (first :: _), st1) =>
        if first.IsIn then
          sendMessage w st number message =
            ((w.SendMessage st1 first.JID message).1, (w.SendMessage st1 first.JID message).2,
              [Effect.isOnWhatsApp [(NewJID (cleanNumber number) DefaultUserServer).String],
                Effect.sendMessage first.JID message])
        else
          sendMessage w st number message =
            (some "number is not registered on WhatsApp", st1,
              [Effect.isOnWhatsApp [(NewJID (cleanNumber number) DefaultUserServer).String]])) ∧
    sendCalls (sendMessage w st number message).2.2 =
      (match w.IsOnWhatsApp st [(NewJID (cleanNumber number) DefaultUserServer).String] with
        | (.ok (first :: _), _) => if first.IsIn then [(first.JID, message)] else []
        | _ => []) := by
  unfold sendMessage
  rcases h : w.IsOnWhatsApp st [(NewJID (cleanNumber number) DefaultUserServer).String]
    with ⟨res, st1⟩
  rcases res with err | resp
  · simp [h, sendCalls]
  · rcases resp with _ | ⟨first, others⟩
    · simp [h, sendCalls]
    · cases hin : first.IsIn <;> simp [h, hin, sendCalls]

/-! ## Lemmas on the loop -/

theorem queryCalls_append (a b : List Effect) :
    queryCalls (a ++ b) = queryCalls a ++ queryCalls b := by
  induction a with
  | nil => rfl
  | cons e rest ih => cases e <;> simp [queryCalls, ih]

theorem sleepCalls_append (a b : List Effect) :
    sleepCalls (a ++ b) = sleepCalls a ++ sleepCalls b := by
  induction a with
  | nil => rfl
  | cons e rest ih => cases e <;> simp [sleepCalls, ih]

theorem sendCalls_append (a b : List Effect) :
    sendCalls (a ++ b) = sendCalls a ++ sendCalls b := by
  induction a with
  | nil => rfl
  | cons e rest ih => cases e <;> simp [sendCalls, ih]

theorem pacing_append (a b : List Effect) :
    pacing (a ++ b) = pacing a ++ pacing b := by
  induction a with
  | nil => rfl
  | cons e rest ih => cases e <;> simp [pacing, ih]

theorem sendMessage_trace {σ : Type} (w : World σ) (st : σ) (number message : String) :
    queryCalls (sendMessage w st number message).2.2 =
        [[(NewJID (cleanNumber number) DefaultUserServer).String]] ∧
      sleepCalls (sendMessage w st number message).2.2 = [] ∧
      pacing (sendMessage w st number message).2.2 = [false] := by
  unfold sendMessage
  rcases h : w.IsOnWhatsApp st [(NewJID (cleanNumber number) DefaultUserServer).String]
    with ⟨res, st1⟩
  rcases res with err | resp
  · simp [h, queryCalls, sleepCalls, pacing]
  · rcases resp with _ | ⟨first, others⟩
    · simp [h, queryCalls, sleepCalls, pacing]
    · cases hin : first.IsIn <;> simp [h, hin, queryCalls, sleepCalls, pacing]

theorem loopBody_eq {σ : Type} (w : World σ) (minDelay maxDelay : Int) (messageTemplate : String)
    (n i : Nat) (contact : Contact) (s : LoopState σ) :
    loopBody w minDelay maxDelay messageTemplate n i contact s =
      if (i : Int) < (n : Int) - 1 then
        if delayArg minDelay maxDelay ≤ 0 then none
        else
          some { counted w messageTemplate contact s with
            world := (w.Intn (counted w messageTemplate contact s).world
              (delayArg minDelay maxDelay)).2,
            trace := (counted w messageTemplate contact s).trace ++
              [Effect.sleep (toDuration (delaySeconds minDelay
                (w.Intn (counted w messageTemplate contact s).world
                  (delayArg minDelay maxDelay)).1))] }
      else some (counted w messageTemplate contact s) := by
  simp only [loopBody, counted]
  generalize sendMessage w s.world contact.Number
    (ReplaceAll messageTemplate "${name}" contact.Name) = r
  rcases r with ⟨err, st1, calls⟩
  cases err <;> simp

theorem counted_facts {σ : Type} (w : World σ) (messageTemplate : String) (contact : Contact)
    (s : LoopState σ) :
    (counted w messageTemplate contact s).successCount +
        (counted w messageTemplate contact s).failCount =
      s.successCount + s.failCount + 1 ∧
    queryCalls (counted w messageTemplate contact s).trace =
      queryCalls s.trace ++ [queryOf contact] ∧
    sleepCalls (counted w messageTemplate contact s).trace = sleepCalls s.trace ∧
    pacing (counted w messageTemplate contact s).trace = pacing s.trace ++ [false] := by
  have h := sendMessage_trace w s.world contact.Number
    (ReplaceAll messageTemplate "${name}" contact.Name)
  refine ⟨?_, ?_, ?_, ?_⟩
  · simp only [counted]
    split <;> omega
  · simp [counted, queryCalls_append, h.1, queryOf]
  · simp [counted, sleepCalls_append, h.2.1]
  · simp [counted, pacing_append, h.2.2]

theorem delayArg_pos (minDelay maxDelay : Int) (hmin : 0 < minDelay) (hle : minDelay ≤ maxDelay)
    (hmax : maxDelay < 9223372036854775808) :
    delayArg minDelay maxDelay = maxDelay - minDelay + 1 ∧ 0 < delayArg minDelay maxDelay := by
  unfold delayArg wrap64
  omega

theorem broadcastFrom_spec {σ : Type} (w : World σ) (minDelay maxDelay : Int)
    (messageTemplate : String) (n : Nat) (hpos : 0 < delayArg minDelay maxDelay) :
    ∀ (cs : List Contact) (i : Nat) (s : LoopState σ), i + cs.length = n →
      ∃ s1, broadcastFrom w minDelay maxDelay messageTemplate n i cs s = some s1 ∧
        s1.successCount + s1.failCount = s.successCount + s.failCount + cs.length ∧
        queryCalls s1.trace = queryCalls s.trace ++ cs.map queryOf ∧
        (sleepCalls s1.trace).length = (sleepCalls s.trace).length + (cs.length - 1) ∧
        pacing s1.trace =
          pacing s.trace ++ List.intersperse true (List.replicate cs.length false) := by
  intro cs
  induction cs with
  | nil =>
    intro i s _
    exact ⟨s, by simp [broadcastFrom]⟩
  | cons c rest ih =>
    intro i s hlen
    have hc := counted_facts w messageTemplate c s
    cases rest with
    | nil =>
      have hlast : ¬ ((i : Int) < (n : Int) - 1) := by
        simp only [List.length_cons, List.length_nil] at hlen
        omega
      refine ⟨counted w messageTemplate c s, ?_, ?_, ?_, ?_, ?_⟩
      · simp [broadcastFrom, loopBody_eq, hlast]
      · simpa using hc.1
      · simpa using hc.2.1
      · simpa using congrArg List.length hc.2.2.1
      · simpa using hc.2.2.2
    | cons c2 rest2 =>
      have hmore : (i : Int) < (n : Int) - 1 := by
        simp only [List.length_cons] at hlen
        omega
      have hnp : ¬ delayArg minDelay maxDelay ≤ 0 := by omega
      obtain ⟨s1, hrun, hcount, hq, hs, hp⟩ := ih (i + 1)
        { counted w messageTemplate c s with
          world := (w.Intn (counted w messageTemplate c s).world
            (delayArg minDelay maxDelay)).2,
          trace := (counted w messageTemplate c s).trace ++
            [Effect.sleep (toDuration (delaySeconds minDelay
              (w.Intn (counted w messageTemplate c s).world
                (delayArg minDelay maxDelay)).1))] }
        (by simp only [List.length_cons] at hlen ⊢; omega)
      refine ⟨s1, ?_, ?_, ?_, ?_, ?_⟩
      · rw [broadcastFrom, loopBody_eq]
        simp only [hmore, hnp, if_true, if_false]
        exact hrun
      · simp only [List.length_cons] at hcount ⊢
        omega
      · rw [hq]
        simp [queryCalls_append, queryCalls, hc.2.1]
      · rw [hs]
        simp [sleepCalls_append, sleepCalls, hc.2.2.1]
        omega
      · rw [hp]
        simp [pacing_append, pacing, hc.2.2.2, List.replicate_succ]

theorem broadcast_spec {σ : Type} (w : World σ) (minDelay maxDelay : Int)
    (messageTemplate : String) (testContacts : List Contact) (st : σ)
    (hmin : 0 < minDelay) (hle : minDelay ≤ maxDelay) (hmax : maxDelay < 9223372036854775808) :
    ∃ s, broadcast w minDelay maxDelay messageTemplate testContacts st = some s ∧
      s.successCount + s.failCount = testContacts.length ∧
      queryCalls s.trace = testContacts.map queryOf ∧
      (sleepCalls s.trace).length = testContacts.length - 1 ∧
      pacing s.trace = List.intersperse true (List.replicate testContacts.length false) := by
  obtain ⟨s, h1, h2, h3, h4, h5⟩ :=
    broadcastFrom_spec w minDelay maxDelay messageTemplate testContacts.length
      (delayArg_pos minDelay maxDelay hmin hle hmax).2 testContacts 0
      { successCount := 0, failCount := 0, world := st, trace := [] } (by simp)
  refine ⟨s, h1, ?_, ?_, ?_, ?_⟩
  · simpa using h2
  · simpa [queryCalls] using h3
  · simpa [sleepCalls] using h4
  · simpa [pacing] using h5

/-! ## Lemmas on the delay range -/

theorem ParseInt_range (s : List Char) (v : Int) (h : ParseInt s = .ok v) :
    -9223372036854775808 ≤ v ∧ v < 9223372036854775808 := by
  unfold ParseInt at h
  split at h
  all_goals
    rename_i neg digits _
    cases hu : ParseUint digits with
    | error e => simp [hu] at h
    | ok un =>
      simp only [hu] at h
      split at h
      · simp at h
      · split at h
        · simp at h
        · cases neg <;> simp_all <;> omega

theorem scanInt_range (input rest : List Char) (v : Int) (h : scanInt input = .ok (v, rest)) :
    -9223372036854775808 ≤ v ∧ v < 9223372036854775808 := by
  unfold scanInt at h
  repeat' split at h
  all_goals first
    | (simp at h; done)
    | (rename_i hp
       simp only [Except.ok.injEq, Prod.mk.injEq] at h
       rw [← h.1]
       exact ParseInt_range _ _ hp)

theorem scanDelayRange_facts (delayRange : String) :
    (scanDelayRange delayRange).2.1 < 9223372036854775808 ∧
      ((scanDelayRange delayRange).2.2 ≠ none → (scanDelayRange delayRange).2.1 = 0) := by
  unfold scanDelayRange
  repeat' split
  all_goals first
    | (simp; done)
    | (rename_i hs
       have := (scanInt_range _ _ _ hs).2
       simpa using this)

theorem parseDelay_eq (delayRange : String) :
    parseDelay delayRange =
      if 0 < (scanDelayRange delayRange).1 ∧ 0 < (scanDelayRange delayRange).2.1 ∧
          (scanDelayRange delayRange).1 ≤ (scanDelayRange delayRange).2.1 then
        some ((scanDelayRange delayRange).1, (scanDelayRange delayRange).2.1)
      else none := by
  have hf := (scanDelayRange_facts delayRange).2
  unfold parseDelay
  rcases h : scanDelayRange delayRange with ⟨a, b, err⟩
  rw [h] at hf
  simp only at hf ⊢
  by_cases he : err = none
  · by_cases hc : a ≤ 0 ∨ b ≤ 0 ∨ a > b
    · have : ¬ (0 < a ∧ 0 < b ∧ a ≤ b) := by omega
      simp [he, hc, this]
    · have : 0 < a ∧ 0 < b ∧ a ≤ b := by omega
      simp only [he, ne_eq, not_true_eq_false, false_or, hc, if_false, this, and_self, if_true]
  · have hb := hf he
    have : ¬ (0 < a ∧ 0 < b ∧ a ≤ b) := by omega
    simp [he, this]

theorem parseDelay_bounds (delayRange : String) (minDelay maxDelay : Int)
    (h : parseDelay delayRange = some (minDelay, maxDelay)) :
    0 < minDelay ∧ minDelay ≤ maxDelay ∧ maxDelay < 9223372036854775808 := by
  have hf := (scanDelayRange_facts delayRange).1
  rw [parseDelay_eq] at h
  split at h
  · rename_i hc
    simp only [Option.some.injEq, Prod.mk.injEq] at h
    rw [← h.1, ← h.2]
    exact ⟨hc.1, hc.2.2, hf⟩
  · simp at h

theorem digit_facts (c : Char) (h : isDecimalDigit c = true) :
    isSpace c = false ∧ c ≠ '\r' ∧ c ≠ '\n' ∧ c ≠ '+' ∧ c ≠ '-' ∧ isScanDigit c = true := by
  have hn : 48 ≤ c.toNat ∧ c.toNat ≤ 57 := by
    simpa [isDecimalDigit] using h
  refine ⟨?_, ?_, ?_, ?_, ?_, ?_⟩
  · simp only [isSpace, Bool.or_eq_false_iff, Bool.and_eq_false_iff, decide_eq_false_iff_not,
      beq_eq_false_iff_ne]
    omega
  · rintro rfl
    simp at hn
  · rintro rfl
    simp at hn
  · rintro rfl
    simp at hn
  · rintro rfl
    simp at hn
  · simp [isScanDigit, h]

theorem skipSpace_digit (c : Char) (rest : List Char) (h : isDecimalDigit c = true) :
    skipSpace (c :: rest) = .ok (c :: rest) := by
  obtain ⟨h1, h2, h3, _, _, _⟩ := digit_facts c h
  simp [skipSpace, h1, h2, h3]

theorem takeWhile_digits (ds rest : List Char) (hd : ∀ c ∈ ds, isDecimalDigit c = true)
    (hr : ∀ c ∈ rest.head?, isScanDigit c = false) :
    (ds ++ rest).takeWhile isScanDigit = ds ∧ (ds ++ rest).dropWhile isScanDigit = rest := by
  induction ds with
  | nil =>
    cases rest with
    | nil => simp
    | cons r rs =>
      have := hr r (by simp)
      simp [List.takeWhile, List.dropWhile, this]
  | cons d ds ih =>
    have hd1 := (digit_facts d (hd d (by simp))).2.2.2.2.2
    have ih2 := ih (fun c hc => hd c (by simp [hc]))
    simp [List.takeWhile, List.dropWhile, hd1, ih2.1, ih2.2]

theorem ParseInt_digits (ds : List Char) (hne : ds ≠ [])
    (hd : ∀ c ∈ ds, isDecimalDigit c = true) :
    ParseInt ds =
      if decimalValue ds < 9223372036854775808 then .ok (decimalValue ds : Int)
      else .error "value out of range" := by
  cases ds with
  | nil => exact absurd rfl hne
  | cons d rest =>
    obtain ⟨_, _, _, hplus, hminus, _⟩ := digit_facts d (hd d (by simp))
    have hall : (d :: rest).all isDecimalDigit = true := by
      simpa using hd
    have hsign : ParseInt (d :: rest) =
        match ParseUint (d :: rest) with
        | .error err => .error err
        | .ok un =>
          if un ≥ 9223372036854775808 then .error "value out of range" else .ok (un : Int) := by
      unfold ParseInt
      split
      rename_i heq
      split at heq
      · rename_i h0
        simp only [List.cons.injEq] at h0
        exact absurd h0.1 hplus
      · rename_i h0
        simp only [List.cons.injEq] at h0
        exact absurd h0.1 hminus
      · simp only [Prod.mk.injEq] at heq
        obtain ⟨rfl, rfl⟩ := heq
        cases ParseUint (d :: rest) <;> simp
    rw [hsign]
    simp only [ParseUint, hall, if_true]
    simp only [decimalValue]
    generalize List.foldl (fun acc c => 10 * acc + (c.toNat - 48)) 0 (d :: rest) = un
    by_cases h64 : un ≥ 18446744073709551616
    · have : ¬ un < 9223372036854775808 := by omega
      simp [h64, this]
    · by_cases h63 : un ≥ 9223372036854775808
      · have : ¬ un < 9223372036854775808 := by omega
        simp [h64, h63, this]
      · have : un < 9223372036854775808 := by omega
        simp [h64, h63, this]

theorem scanInt_digits (ds rest : List Char) (hne : ds ≠ [])
    (hd : ∀ c ∈ ds, isDecimalDigit c = true) (hr : ∀ c ∈ rest.head?, isScanDigit c = false) :
    scanInt (ds ++ rest) =
      if decimalValue ds < 9223372036854775808 then .ok ((decimalValue ds : Int), rest)
      else .error "value out of range" := by
  have htd := takeWhile_digits ds rest hd hr
  have hp := ParseInt_digits ds hne hd
  cases ds with
  | nil => exact absurd rfl hne
  | cons d more =>
    have hdig := hd d (by simp)
    obtain ⟨_, _, _, hplus, hminus, _⟩ := digit_facts d hdig
    have hskip := skipSpace_digit d (more ++ rest) hdig
    simp only [List.cons_append] at htd hskip ⊢
    simp only [scanInt, hskip, hplus, hminus, or_self, if_false, List.nil_append, htd.1, htd.2,
      hp]
    by_cases hv : decimalValue (d :: more) < 9223372036854775808 <;> simp [hv]

theorem parseDelay_numerals (ds1 ds2 : List Char) (hne1 : ds1 ≠ []) (hne2 : ds2 ≠ [])
    (hd1 : ∀ c ∈ ds1, isDecimalDigit c = true) (hd2 : ∀ c ∈ ds2, isDecimalDigit c = true) :
    parseDelay ⟨ds1 ++ '-' :: ds2⟩ =
      if decimalValue ds1 < 9223372036854775808 ∧ decimalValue ds2 < 9223372036854775808 ∧
          0 < decimalValue ds1 ∧ decimalValue ds1 ≤ decimalValue ds2 then
        some ((decimalValue ds1 : Int), (decimalValue ds2 : Int))
      else none := by
  have h1 := scanInt_digits ds1 ('-' :: ds2) hne1 hd1 (by simp [isScanDigit, isDecimalDigit])
  have h2 := scanInt_digits ds2 [] hne2 hd2 (by simp)
  rw [List.append_nil] at h2
  rw [parseDelay_eq]
  by_cases hv1 : decimalValue ds1 < 9223372036854775808
  · rw [if_pos hv1] at h1
    by_cases hv2 : decimalValue ds2 < 9223372036854775808
    · rw [if_pos hv2] at h2
      have hs : scanDelayRange ⟨ds1 ++ '-' :: ds2⟩ =
          ((decimalValue ds1 : Int), (decimalValue ds2 : Int), none) := by
        simp [scanDelayRange, h1, h2]
      rw [hs]
      by_cases hc : 0 < decimalValue ds1 ∧ decimalValue ds1 ≤ decimalValue ds2
      · have : (0 : Int) < decimalValue ds1 ∧ (0 : Int) < decimalValue ds2 ∧
            (decimalValue ds1 : Int) ≤ decimalValue ds2 := by omega
        simp only [this, and_self, if_true, hv1, hv2, hc]
      · have : ¬ ((0 : Int) < decimalValue ds1 ∧ (0 : Int) < decimalValue ds2 ∧
            (decimalValue ds1 : Int) ≤ decimalValue ds2) := by omega
        simp only [this, if_false, hv1, hv2, hc, and_false]
    · rw [if_neg hv2] at h2
      have hs : scanDelayRange ⟨ds1 ++ '-' :: ds2⟩ =
          ((decimalValue ds1 : Int), 0, some "value out of range") := by
        simp [scanDelayRange, h1, h2]
      rw [hs]
      simp [hv2]
  · rw [if_neg hv1] at h1
    have hs : scanDelayRange ⟨ds1 ++ '-' :: ds2⟩ = (0, 0, some "value out of range") := by
      simp [scanDelayRange, h1]
    rw [hs]
    simp [hv1]

/-! ## Lemmas on the run -/

theorem qrLoop_calls (evs : List QRChannelItem) :
    queryCalls (qrLoop evs) = [] ∧ Effect.disconnect ∉ qrLoop evs := by
  induction evs with
  | nil => simp [qrLoop, queryCalls]
  | cons evt rest ih =>
    by_cases h : evt.Event = "code"
    · simp [qrLoop, h, queryCalls, ih]
    · simp [qrLoop, h, queryCalls]

theorem setup_calls (env : SetupEnv) :
    queryCalls (setupWhatsAppClient env).2 = [] ∧
      Effect.disconnect ∉ (setupWhatsAppClient env).2 := by
  have hq := qrLoop_calls env.qrChan
  unfold setupWhatsAppClient waitConnected
  repeat' split
  all_goals simp [queryCalls, queryCalls_append, hq.1, hq.2]

theorem main_invalid_delay {σ : Type} (w : World σ) (st : σ) (cfg : Config)
    (h : parseDelay cfg.delayRange = none) :
    main w st cfg = { exitCode := 1, trace := [], summary := none } := by
  unfold main
  simp only [h]
  split
  · rfl
  · split <;> rfl

theorem main_setup_fails {σ : Type} (w : World σ) (st : σ) (cfg : Config)
    (minDelay maxDelay : Int) (messageBytes err : String) (contacts : List Contact)
    (calls : List Effect)
    (hn : cfg.numbersExists = true) (hm : cfg.messageExists = true)
    (hd : parseDelay cfg.delayRange = some (minDelay, maxDelay))
    (hf : cfg.messageFile = .ok messageBytes)
    (hr : readContacts cfg.records = .ok contacts) (hc : contacts ≠ [])
    (hs : setupWhatsAppClient cfg.setup = (.error err, calls)) :
    main w st cfg =
      { exitCode := 1, trace := [Effect.readFile, Effect.readContacts] ++ calls,
        summary := none } := by
  have hlen : ¬ contacts.length = 0 := by
    simpa using hc
  unfold main
  simp only [hn, hm, hd, hf, hr, hs, hlen, Bool.not_true, Bool.false_eq_true, if_false]

theorem main_completes {σ : Type} (w : World σ) (st : σ) (cfg : Config)
    (minDelay maxDelay : Int) (messageBytes : String) (contacts : List Contact)
    (calls : List Effect)
    (hn : cfg.numbersExists = true) (hm : cfg.messageExists = true)
    (hd : parseDelay cfg.delayRange = some (minDelay, maxDelay))
    (hf : cfg.messageFile = .ok messageBytes)
    (hr : readContacts cfg.records = .ok contacts) (hc : contacts ≠ [])
    (hs : setupWhatsAppClient cfg.setup = (.ok (), calls)) :
    ∃ s, broadcast w minDelay maxDelay (TrimSpace messageBytes)
        (selectContacts contacts cfg.fullMode) st = some s ∧
      main w st cfg =
        { exitCode := 0,
          trace := [Effect.readFile, Effect.readContacts] ++ calls ++
            [Effect.sleep 3000000000] ++ s.trace ++ [Effect.disconnect],
          summary := some (s.successCount, s.failCount) } ∧
      s.successCount + s.failCount = (selectContacts contacts cfg.fullMode).length ∧
      queryCalls (main w st cfg).trace = (selectContacts contacts cfg.fullMode).map queryOf := by
  have hlen : ¬ contacts.length = 0 := by
    simpa using hc
  obtain ⟨hmin, hle, hmax⟩ := parseDelay_bounds cfg.delayRange minDelay maxDelay hd
  obtain ⟨s, hb, hcount, hq, _, _⟩ := broadcast_spec w minDelay maxDelay (TrimSpace messageBytes)
    (selectContacts contacts cfg.fullMode) st hmin hle hmax
  have hmain : main w st cfg =
      { exitCode := 0,
        trace := [Effect.readFile, Effect.readContacts] ++ calls ++
          [Effect.sleep 3000000000] ++ s.trace ++ [Effect.disconnect],
        summary := some (s.successCount, s.failCount) } := by
    unfold main
    simp only [hn, hm, hd, hf, hr, hs, hlen, hb, Bool.not_true, Bool.false_eq_true, if_false]
  refine ⟨s, hb, hmain, hcount, ?_⟩
  have hsq := (setup_calls cfg.setup).1
  rw [hs] at hsq
  rw [hmain]
  simp only at hsq ⊢
  simp [queryCalls_append, queryCalls, hsq, hq]

theorem disconnectCount_append (a b : List Effect) :
    disconnectCount (a ++ b) = disconnectCount a + disconnectCount b := by
  simp [disconnectCount]

theorem sendMessage_no_disconnect {σ : Type} (w : World σ) (st : σ) (number message : String) :
    disconnectCount (sendMessage w st number message).2.2 = 0 := by
  unfold sendMessage
  rcases h : w.IsOnWhatsApp st [(NewJID (cleanNumber number) DefaultUserServer).String]
    with ⟨res, st1⟩
  rcases res with err | resp
  · simp [h, disconnectCount]
  · rcases resp with _ | ⟨first, others⟩
    · simp [h, disconnectCount]
    · cases hin : first.IsIn <;> simp [h, hin, disconnectCount]

theorem broadcastFrom_no_disconnect {σ : Type} (w : World σ) (minDelay maxDelay : Int)
    (messageTemplate : String) (n : Nat) :
    ∀ (cs : List Contact) (i : Nat) (s s1 : LoopState σ),
      broadcastFrom w minDelay maxDelay messageTemplate n i cs s = some s1 →
        disconnectCount s1.trace = disconnectCount s.trace := by
  intro cs
  induction cs with
  | nil =>
    intro i s s1 h
    simp only [broadcastFrom, Option.some.injEq] at h
    rw [h]
  | cons c rest ih =>
    intro i s s1 h
    have hsm := sendMessage_no_disconnect w s.world c.Number
      (ReplaceAll messageTemplate "${name}" c.Name)
    have hcnt : disconnectCount (counted w messageTemplate c s).trace =
        disconnectCount s.trace := by
      simp [counted, disconnectCount_append, hsm]
    rw [broadcastFrom] at h
    cases hb : loopBody w minDelay maxDelay messageTemplate n i c s with
    | none => simp [hb] at h
    | some s2 =>
      simp only [hb] at h
      rw [ih _ _ _ h]
      rw [loopBody_eq] at hb
      split at hb
      · split at hb
        · simp at hb
        · simp only [Option.some.injEq] at hb
          rw [← hb]
          simp only [disconnectCount_append, hcnt]
          simp [disconnectCount]
      · simp only [Option.some.injEq] at hb
        rw [← hb, hcnt]

theorem qrLoop_eq (evs : List QRChannelItem) :
    qrLoop evs = (evs.takeWhile isCode).map (fun evt => Effect.qrRender evt.Code) ++
      (if evs.all isCode then []
        else [Effect.println "✅ Authenticated successfully (session will be saved)"]) := by
  induction evs with
  | nil => simp [qrLoop]
  | cons evt rest ih =>
    by_cases h : evt.Event = "code"
    · simp [qrLoop, isCode, h, List.takeWhile, ih]
    · simp [qrLoop, isCode, h, List.takeWhile]

/-! ## The claims, continued -/

/-- C3: with valid delay bounds the broadcast loop finishes for every working
set and every behaviour of the client, `successCount + failCount` is then the
size of the working set, the delivery attempts are those of the recipients in
list order, one each, and every iteration adds one to exactly one counter:
`successCount` when `sendMessage` returned nil, `failCount` otherwise. -/
theorem broadcast_counts {σ : Type} (w : World σ) (minDelay maxDelay : Int)
    (messageTemplate : String) (testContacts : List Contact) (st : σ)
    (hmin : 0 < minDelay) (hle : minDelay ≤ maxDelay) (hmax : maxDelay < 9223372036854775808) :
    (∃ s, broadcast w minDelay maxDelay messageTemplate testContacts st = some s ∧
      s.successCount + s.failCount = testContacts.length ∧
      queryCalls s.trace = testContacts.map queryOf) ∧
    (∀ (n i : Nat) (contact : Contact) (s s1 : LoopState σ),
      loopBody w minDelay maxDelay messageTemplate n i contact s = some s1 →
        if (sendMessage w s.world contact.Number
            (ReplaceAll messageTemplate "${name}" contact.Name)).1 = none then
          s1.successCount = s.successCount + 1 ∧ s1.failCount = s.failCount
        else
          s1.successCount = s.successCount ∧ s1.failCount = s.failCount + 1) := by
  constructor
  · obtain ⟨s, h1, h2, h3, _, _⟩ :=
      broadcast_spec w minDelay maxDelay messageTemplate testContacts st hmin hle hmax
    exact ⟨s, h1, h2, h3⟩
  · intro n i contact s s1 hb
    have hcount : s1.successCount = (counted w messageTemplate contact s).successCount ∧
        s1.failCount = (counted w messageTemplate contact s).failCount := by
      rw [loopBody_eq] at hb
      split at hb
      · split at hb
        · simp at hb
        · simp only [Option.some.injEq] at hb
          rw [← hb]
          exact ⟨rfl, rfl⟩
      · simp only [Option.some.injEq] at hb
        rw [← hb]
        exact ⟨rfl, rfl⟩
    rw [hcount.1, hcount.2]
    simp only [counted]
    split <;> simp_all

/-- Witness of C3: two recipients, delay bounds 15 and 35. -/
theorem broadcast_counts_witness :
    (∃ s, broadcast friendlyWorld 15 35 "Hi ${name}!"
        [⟨"Alice", "+1 555-0100"⟩, ⟨"Bob", "5550101"⟩] () = some s ∧
      s.successCount + s.failCount = 2 ∧
      queryCalls s.trace = [["15550100@s.whatsapp.net"], ["5550101@s.whatsapp.net"]]) :=
  (broadcast_counts friendlyWorld 15 35 "Hi ${name}!"
    [⟨"Alice", "+1 555-0100"⟩, ⟨"Bob", "5550101"⟩] () (by decide) (by decide) (by decide)).1

/-- C4: with valid delay bounds and a working set of `n ≥ 1` recipients the
loop sleeps exactly `n - 1` times, and attempts and sleeps alternate, starting
and ending with an attempt: one sleep after every recipient but the last,
whatever the result of the send, and none after the last. -/
theorem broadcast_sleeps {σ : Type} (w : World σ) (minDelay maxDelay : Int)
    (messageTemplate : String) (testContacts : List Contact) (st : σ)
    (hmin : 0 < minDelay) (hle : minDelay ≤ maxDelay) (hmax : maxDelay < 9223372036854775808)
    (hn : 1 ≤ testContacts.length) :
    ∃ s, broadcast w minDelay maxDelay messageTemplate testContacts st = some s ∧
      (sleepCalls s.trace).length = testContacts.length - 1 ∧
      pacing s.trace = List.intersperse true (List.replicate testContacts.length false) ∧
      (pacing s.trace).getLast? = some false ∧
      (testContacts.length = 1 → sleepCalls s.trace = []) := by
  obtain ⟨s, h1, _, _, h4, h5⟩ :=
    broadcast_spec w minDelay maxDelay messageTemplate testContacts st hmin hle hmax
  refine ⟨s, h1, h4, h5, ?_, ?_⟩
  · rw [h5]
    obtain ⟨k, hk⟩ : ∃ k, testContacts.length = k + 1 := ⟨testContacts.length - 1, by omega⟩
    rw [hk]
    clear hk hn h4 h5 h1
    induction k with
    | zero => simp
    | succ k ih =>
      rw [List.replicate_succ, List.replicate_succ, List.intersperse_cons₂]
      rw [List.replicate_succ] at ih
      cases hrest : List.intersperse true (false :: List.replicate k false) with
      | nil => simp [hrest] at ih
      | cons x xs =>
        rw [hrest] at ih
        simpa [List.getLast?_cons_cons] using ih
  · intro h1len
    rw [h1len] at h4
    exact List.eq_nil_of_length_eq_zero (by simpa using h4)

/-- Witness of C4: two recipients, one sleep between them. -/
theorem broadcast_sleeps_witness :
    ∃ s, broadcast friendlyWorld 15 35 "Hi ${name}!"
        [⟨"Alice", "+1 555-0100"⟩, ⟨"Bob", "5550101"⟩] () = some s ∧
      (sleepCalls s.trace).length = 2 - 1 ∧
      pacing s.trace = [false, true, false] ∧
      (pacing s.trace).getLast? = some false ∧
      ((2 : Nat) = 1 → sleepCalls s.trace = []) :=
  broadcast_sleeps friendlyWorld 15 35 "Hi ${name}!"
    [⟨"Alice", "+1 555-0100"⟩, ⟨"Bob", "5550101"⟩] () (by decide) (by decide) (by decide)
    (by decide)

/-- C5: for 64-bit integers `0 < minDelay ≤ maxDelay` the argument of the random
draw is `maxDelay - minDelay + 1 ≥ 1` without wrap-around, so the draw in the
loop cannot panic, and the delays `minDelay + r` over the draws
`0 ≤ r < maxDelay - minDelay + 1` are, without wrap-around, exactly the integers
of `[minDelay, maxDelay]`. -/
theorem delay_within_bounds (minDelay maxDelay : Int)
    (hmin : 0 < minDelay) (hle : minDelay ≤ maxDelay) (hmax : maxDelay < 9223372036854775808) :
    delayArg minDelay maxDelay = maxDelay - minDelay + 1 ∧
    1 ≤ delayArg minDelay maxDelay ∧
    (∀ r, 0 ≤ r → r < delayArg minDelay maxDelay →
      delaySeconds minDelay r = minDelay + r ∧
        minDelay ≤ delaySeconds minDelay r ∧ delaySeconds minDelay r ≤ maxDelay) ∧
    (∀ v, minDelay ≤ v → v ≤ maxDelay →
      ∃ r, 0 ≤ r ∧ r < delayArg minDelay maxDelay ∧ delaySeconds minDelay r = v) ∧
    (∀ (σ : Type) (w : World σ) (messageTemplate : String) (n i : Nat) (contact : Contact)
      (s : LoopState σ),
      (loopBody w minDelay maxDelay messageTemplate n i contact s).isSome = true) := by
  obtain ⟨harg, hpos⟩ := delayArg_pos minDelay maxDelay hmin hle hmax
  refine ⟨harg, by omega, ?_, ?_, ?_⟩
  · intro r h0 hr
    rw [harg] at hr
    unfold delaySeconds wrap64
    omega
  · intro v hv1 hv2
    refine ⟨v - minDelay, by omega, by omega, ?_⟩
    unfold delaySeconds wrap64
    omega
  · intro σ w messageTemplate n i contact s
    have hnp : ¬ delayArg minDelay maxDelay ≤ 0 := by omega
    rw [loopBody_eq]
    split <;> simp [hnp]

/-- Witness of C5: the default bounds 15 and 35. -/
theorem delay_within_bounds_witness :
    delayArg 15 35 = 35 - 15 + 1 ∧ 1 ≤ delayArg 15 35 ∧
      delaySeconds 15 0 = 15 ∧ delaySeconds 15 20 = 35 :=
  ⟨(delay_within_bounds 15 35 (by decide) (by decide) (by decide)).1,
    (delay_within_bounds 15 35 (by decide) (by decide) (by decide)).2.1,
    by decide, by decide⟩

/-- C6: on a non-empty contact list the working set is the one-element list of
the first contact in test mode and the whole list in full mode; a run that
reaches the broadcast attempts exactly the recipients of that working set, in
order, and its summary counts that many outcomes. -/
theorem working_set_selection :
    (∀ (first : Contact) (others : List Contact),
      selectContacts (first :: others) false = [first]) ∧
    (∀ contacts : List Contact, selectContacts contacts true = contacts) ∧
    (∀ (σ : Type) (w : World σ) (st : σ) (cfg : Config) (minDelay maxDelay : Int)
      (messageBytes : String) (contacts : List Contact) (calls : List Effect),
      cfg.numbersExists = true → cfg.messageExists = true →
      parseDelay cfg.delayRange = some (minDelay, maxDelay) →
      cfg.messageFile = .ok messageBytes →
      readContacts cfg.records = .ok contacts → contacts ≠ [] →
      setupWhatsAppClient cfg.setup = (.ok (), calls) →
      queryCalls (main w st cfg).trace = (selectContacts contacts cfg.fullMode).map queryOf ∧
        ∃ succeeded failed, (main w st cfg).summary = some (succeeded, failed) ∧
          succeeded + failed = (selectContacts contacts cfg.fullMode).length) := by
  refine ⟨?_, ?_, ?_⟩
  · intro first others
    simp [selectContacts]
  · intro contacts
    simp [selectContacts]
  · intro σ w st cfg minDelay maxDelay messageBytes contacts calls hn hm hd hf hr hc hs
    obtain ⟨s, _, hmain, hcount, hq⟩ :=
      main_completes w st cfg minDelay maxDelay messageBytes contacts calls hn hm hd hf hr hc hs
    refine ⟨hq, s.successCount, s.failCount, ?_, hcount⟩
    rw [hmain]

/-- Witness of C6: the scenario of the specification attempts Alice only. -/
theorem working_set_selection_witness :
    queryCalls (main friendlyWorld () sampleConfig).trace = [["15550100@s.whatsapp.net"]] ∧
      (main friendlyWorld () sampleConfig).summary = some (1, 0) :=
  ⟨(working_set_selection.2.2 Unit friendlyWorld () sampleConfig 15 35 "Hi ${name}!\n"
      [⟨"Alice", "+1 555-0100"⟩, ⟨"Bob", "5550101"⟩]
      [Effect.connect, Effect.println "✅ WhatsApp client ready (using saved session)",
        Effect.awaitConnected, Effect.println "✅ Connection established"]
      rfl rfl (by decide) rfl rfl (by decide) rfl).1,
    by decide⟩

/-- C8: the delay range is accepted exactly when the two integers `Sscanf`
left in `minDelay` and `maxDelay` are positive with `minDelay ≤ maxDelay`; for a
string `<digits>-<digits>` these are the two numbers written, provided each fits
a 64-bit integer (otherwise the scan fails and the range is rejected); a
rejected range ends the run with status 1 before any file is read, any
connection is made or any message is sent; `"15-35"` gives the bounds 15 and 35
and `"35-15"` is rejected. -/
theorem delay_range_accepted :
    (∀ delayRange : String,
      parseDelay delayRange =
        if 0 < (scanDelayRange delayRange).1 ∧ 0 < (scanDelayRange delayRange).2.1 ∧
            (scanDelayRange delayRange).1 ≤ (scanDelayRange delayRange).2.1 then
          some ((scanDelayRange delayRange).1, (scanDelayRange delayRange).2.1)
        else none) ∧
    (∀ ds1 ds2 : List Char, ds1 ≠ [] → ds2 ≠ [] →
      (∀ c ∈ ds1, isDecimalDigit c = true) → (∀ c ∈ ds2, isDecimalDigit c = true) →
      parseDelay ⟨ds1 ++ '-' :: ds2⟩ =
        if decimalValue ds1 < 9223372036854775808 ∧ decimalValue ds2 < 9223372036854775808 ∧
            0 < decimalValue ds1 ∧ decimalValue ds1 ≤ decimalValue ds2 then
          some ((decimalValue ds1 : Int), (decimalValue ds2 : Int))
        else none) ∧
    (∀ (σ : Type) (w : World σ) (st : σ) (cfg : Config),
      parseDelay cfg.delayRange = none →
        main w st cfg = { exitCode := 1, trace := [], summary := none }) ∧
    parseDelay "15-35" = some (15, 35) ∧
    scanDelayRange "35-15" = (35, 15, none) ∧
    parseDelay "35-15" = none :=
  ⟨parseDelay_eq, parseDelay_numerals,
    fun _ w st cfg h => main_invalid_delay w st cfg h, by decide, by decide, by decide⟩

/-- Witness of C8: the numerals `15` and `35`, and a run with the range
`"35-15"`. -/
theorem delay_range_accepted_witness :
    parseDelay ⟨['1', '5'] ++ '-' :: ['3', '5']⟩ = some (15, 35) ∧
      main friendlyWorld () { sampleConfig with delayRange := "35-15" } =
        { exitCode := 1, trace := [], summary := none } :=
  ⟨(delay_range_accepted.2.1 ['1', '5'] ['3', '5'] (by decide) (by decide) (by decide)
      (by decide)).trans (by decide),
    delay_range_accepted.2.2.1 Unit friendlyWorld () { sampleConfig with delayRange := "35-15" }
      (by decide)⟩

/-- C9 fails on the code: in a run whose connect succeeds and whose `Connected`
event does not arrive within the timeout, `setupWhatsAppClient` returns the
timeout error and `main` exits with status 1; `client.Connect()` was called and
`client.Disconnect()` never is. -/
theorem timeout_run_never_disconnects :
    main friendlyWorld () { sampleConfig with setup := { readySetup with connected := false } } =
      { exitCode := 1,
        trace := [Effect.readFile, Effect.readContacts, Effect.connect,
          Effect.println "✅ WhatsApp client ready (using saved session)",
          Effect.awaitConnected],
        summary := none } ∧
    Effect.connect ∈
      (main friendlyWorld ()
        { sampleConfig with setup := { readySetup with connected := false } }).trace ∧
    disconnectCount
      (main friendlyWorld ()
        { sampleConfig with setup := { readySetup with connected := false } }).trace = 0 := by
  decide

/-- Session release by exit path: a run that reaches the broadcast calls
`client.Disconnect()` exactly once, as its last call, and a run whose session
setup fails never calls it. -/
theorem disconnect_on_completion_only {σ : Type} (w : World σ) (st : σ) (cfg : Config)
    (minDelay maxDelay : Int) (messageBytes : String) (contacts : List Contact)
    (hn : cfg.numbersExists = true) (hm : cfg.messageExists = true)
    (hd : parseDelay cfg.delayRange = some (minDelay, maxDelay))
    (hf : cfg.messageFile = .ok messageBytes)
    (hr : readContacts cfg.records = .ok contacts) (hc : contacts ≠ []) :
    match (setupWhatsAppClient cfg.setup).1 with
    | .ok () =>
      (main w st cfg).exitCode = 0 ∧ disconnectCount (main w st cfg).trace = 1 ∧
        (main w st cfg).trace.getLast? = some Effect.disconnect
    | .error _ =>
      (main w st cfg).exitCode = 1 ∧ disconnectCount (main w st cfg).trace = 0 := by
  have hsd := (setup_calls cfg.setup).2
  rcases hs : setupWhatsAppClient cfg.setup with ⟨res, calls⟩
  rw [hs] at hsd
  simp only at hsd
  have hcalls : disconnectCount calls = 0 := List.count_eq_zero.2 hsd
  rcases res with err | ⟨⟩
  · have hmain := main_setup_fails w st cfg minDelay maxDelay messageBytes err contacts calls
      hn hm hd hf hr hc hs
    simp only [hmain]
    refine ⟨trivial, ?_⟩
    rw [disconnectCount_append, hcalls]
    simp [disconnectCount]
  · obtain ⟨s, hb, hmain, _, _⟩ :=
      main_completes w st cfg minDelay maxDelay messageBytes contacts calls hn hm hd hf hr hc hs
    have hloop := broadcastFrom_no_disconnect w minDelay maxDelay (TrimSpace messageBytes) _ _ _ _ _ hb
    simp only [hmain]
    refine ⟨trivial, ?_, ?_⟩
    · simp only [disconnectCount_append, hcalls, hloop]
      simp [disconnectCount]
    · exact List.getLast?_concat _

/-- C10 as stated fails: the pairing stream yields one code and is closed, no
event other than a code ever arrives, yet the authenticator goes on to the
connection wait and, the `Connected` event arriving, returns the client. -/
theorem pairing_closed_stream_proceeds :
    (∀ evt ∈ [({ Event := "code", Code := "2@abc" } : QRChannelItem)], evt.Event = "code") ∧
    setupWhatsAppClient (pairingSetup [{ Event := "code", Code := "2@abc" }] true) =
      (.ok (), pairingIntro ++ [Effect.connect, Effect.qrRender "2@abc", Effect.awaitConnected,
        Effect.println "✅ Connection established"]) ∧
    Effect.awaitConnected ∈
      (setupWhatsAppClient (pairingSetup [{ Event := "code", Code := "2@abc" }] true)).2 := by
  refine ⟨by decide, rfl, by decide⟩

/-- C10 amended: in the pairing flow the codes rendered are those of the code
events that precede the first event of another kind; the loop ends at that
event, whatever its kind, printing the authenticated line, or when the stream is
closed; in both cases the authenticator goes on to the connection wait, and it
fails exactly when the `Connected` event does not arrive in time, with the
timeout error. -/
theorem pairing_flow (qrChan : List QRChannelItem) (connected : Bool) :
    (setupWhatsAppClient (pairingSetup qrChan connected)).2 =
      pairingIntro ++ [Effect.connect] ++
        (qrChan.takeWhile isCode).map (fun evt => Effect.qrRender evt.Code) ++
        (if qrChan.all isCode then []
          else [Effect.println "✅ Authenticated successfully (session will be saved)"]) ++
        [Effect.awaitConnected] ++
        (if connected then [Effect.println "✅ Connection established"] else []) ∧
    (setupWhatsAppClient (pairingSetup qrChan connected)).1 =
      (if connected then .ok () else .error "connection timeout") := by
  have hq := qrLoop_eq qrChan
  cases connected <;>
    simp [setupWhatsAppClient, pairingSetup, waitConnected, pairingIntro, hq]

/-! ## Evaluations -/

/-- The scenario of the specification, run to the end: Alice alone is verified
and sent `"Hi Alice!"`, no delay is taken, and the session is released. -/
theorem sample_run :
    main friendlyWorld () sampleConfig =
      { exitCode := 0,
        trace := [Effect.readFile, Effect.readContacts, Effect.connect,
          Effect.println "✅ WhatsApp client ready (using saved session)",
          Effect.awaitConnected, Effect.println "✅ Connection established",
          Effect.sleep 3000000000,
          Effect.isOnWhatsApp ["15550100@s.whatsapp.net"],
          Effect.sendMessage (NewJID "verified" DefaultUserServer) "Hi Alice!",
          Effect.disconnect],
        summary := some (1, 0) } := by
  decide

/-- A contact table with a header, a short row, a row with an empty name and a
duplicate. -/
theorem sample_contacts :
    readContacts (.ok [[" Alice ", "1"], [" Alice ", "+1 555"], ["x"], ["", "1"],
        ["Bob", " 2 "], ["Bob", "2", "extra"]]) =
      .ok [⟨"Alice", "+1 555"⟩, ⟨"Bob", "2"⟩, ⟨"Bob", "2"⟩] := by
  rfl

/-- The scan of a delay range skips leading blanks, takes a sign, ignores what
follows the second integer, and fails on an underscore or on a number outside
64 bits. -/
theorem sample_delay_ranges :
    parseDelay " +15-35" = some (15, 35) ∧ parseDelay "15-35abc" = some (15, 35) ∧
      parseDelay "15--35" = none ∧ parseDelay "1_5-35" = none ∧ parseDelay "15" = none ∧
      parseDelay "9223372036854775808-9223372036854775809" = none ∧
      parseDelay "0-5" = none := by
  decide

/-- The conversion of a delay to nanoseconds is exact up to 9223372036 seconds
and wraps above. -/
theorem toDuration_range :
    (∀ seconds : Int, 0 ≤ seconds → seconds ≤ 9223372036 →
      toDuration seconds = seconds * 1000000000) ∧
    toDuration 9223372037 < 0 := by
  constructor
  · intro seconds h0 h1
    unfold toDuration wrap64
    omega
  · decide

end WhatsappBroadcast
